import Mathlib

/-!
# Verification of google/renameio: atomic file replacement

A shallow embedding of the renameio library: the pending-file lifecycle
(`NewPendingFile`, `Write`, `CloseAtomicallyReplace`, `Cleanup`), the
permission/ownership resolution, the candidate-temp-directory resolver
(`tempDir` / `TempDir`) and the `TempDirCache`.

The repository sources available here contain the tests
(`tempfile_test.go`, the `TestTempDir` harness), the `TempDirCache`
implementation, and thin shims; the core `tempfile.go` (pending-file
lifecycle, option handling, `tempDir`) is not among them, so those parts
are modelled from the specification document (its sections 3, 4.1, 4.2
and 4.4), as marked in the doc comments below.

Conventions of the model:
* file contents are byte lists (`List Nat`), permission modes are `Nat`
  holding Unix permission bits;
* the filesystem is a partial map from path strings to files; the
  syscalls used by the library (exclusive-create open, write/append,
  rename, remove, lstat, chmod) become pure state transformers on it;
* Go's bit-clear operator `m &^ u` (used for umask masking) is
  `Nat.ldiff m u`;
* fallible operations return their new state together with an
  `Except FErr Unit`; rename failure (the one failure mode the
  atomicity claims quantify over) is injected through an explicit
  `renameOk : Bool` oracle argument.
-/

/-- A regular file: its byte content and its permission bits. -/
structure File where
  content : List Nat
  mode : Nat
deriving DecidableEq, Repr

/-- The filesystem: a partial map from paths to regular files. -/
abbrev FS := String → Option File

/-- Create or truncate-replace the file at path `p` (open/creat, rename target). -/
def FS.put (fs : FS) (p : String) (f : File) : FS :=
  fun q => if q = p then some f else fs q

/-- Remove the directory entry at path `p` (os.Remove; also the rename source). -/
def FS.del (fs : FS) (p : String) : FS :=
  fun q => if q = p then none else fs q

@[simp] theorem FS.put_self (fs : FS) (p : String) (f : File) : FS.put fs p f p = some f := by
  simp [FS.put]

@[simp] theorem FS.put_other (fs : FS) (p q : String) (f : File) (h : q ≠ p) :
    FS.put fs p f q = fs q := by
  simp [FS.put, h]

@[simp] theorem FS.del_self (fs : FS) (p : String) : FS.del fs p p = none := by
  simp [FS.del]

@[simp] theorem FS.del_other (fs : FS) (p q : String) (h : q ≠ p) : FS.del fs p q = fs q := by
  simp [FS.del, h]

/-- Errors surfaced by the pending-file operations that the claims mention.
`closed` is the `os.ErrClosed` class; `renameFailed` stands for any error of
the rename step; `ioError` covers the remaining I/O failures (e.g. writing
to a temp file whose entry vanished), which no claim quantifies over. -/
inductive FErr where
  | closed
  | renameFailed
  | ioError
deriving DecidableEq, Repr

/-- Modelled from the spec: the immutable `Configuration` of section 3 —
`tempDirectory` (caller override for the temp-file directory),
the permission policy split into its option-level fields
(`WithStaticPermissions` / `WithPermissions` / `WithExistingPermissions` /
`IgnoreUmask`), and the optional `(uid, gid)` ownership pair where
"unset" means leave unchanged. The core option constructors are not in
the provided sources; their resolved fields follow the spec's
Configuration record. -/
structure Config where
  tempDirectory : Option String := none
  staticPerm : Option Nat := none
  perm : Option Nat := none
  useExistingPerm : Bool := false
  ignoreUmask : Bool := false
  uid : Option Nat := none
  gid : Option Nat := none
deriving DecidableEq, Repr

/-- Modelled from the spec: option `WithTempDir` supplies the caller's
temp-directory override. -/
def WithTempDir (d : String) (c : Config) : Config := { c with tempDirectory := some d }

/-- Modelled from the spec: option `WithStaticPermissions(M)` requests that
the destination end up with exactly mode `M`, applied verbatim. -/
def WithStaticPermissions (m : Nat) (c : Config) : Config := { c with staticPerm := some m }

/-- Modelled from the spec: option `WithPermissions(M)` requests a plain mode,
subject to umask masking unless `IgnoreUmask` is also given. -/
def WithPermissions (m : Nat) (c : Config) : Config := { c with perm := some m }

/-- Modelled from the spec: option `WithExistingPermissions()` asks to reuse a
pre-existing destination's mode. -/
def WithExistingPermissions (c : Config) : Config := { c with useExistingPerm := true }

/-- Modelled from the spec: option `IgnoreUmask()` disables umask masking of
the plain requested mode (applied verbatim via a post-creation mode-set). -/
def IgnoreUmask (c : Config) : Config := { c with ignoreUmask := true }

/-- Modelled from the spec: the Permission Resolver of section 4.2. Given
the configuration, the active umask and the pre-existing destination's
mode (`none` when the destination does not exist), it computes the mode
the destination will carry after a successful commit, following the
spec's precedence table:
1. an explicit static mode wins unconditionally and is applied verbatim;
2. "use existing file's mode" wins next when the destination exists, the
   existing mode taken exactly, umask not applied;
3. "use existing" with no existing destination falls back to the explicit
   plain mode if given, else the default `0o600`;
4. a plain mode is masked by the umask (`m &^ umask`, i.e. `Nat.ldiff`)
   unless umask application is disabled, in which case it is verbatim;
5. absent any option, the default `0o600` masked by the umask. -/
def resolvePerm (cfg : Config) (umask : Nat) (existingMode : Option Nat) : Nat :=
  match cfg.staticPerm with
  | some m => m
  | none =>
    match (if cfg.useExistingPerm then existingMode else none) with
    | some m => m
    | none =>
      let requested := cfg.perm.getD 0o600
      if cfg.ignoreUmask then requested else Nat.ldiff requested umask

/-- Modelled from the spec: the three-state lifecycle of a pending
replacement, `Open → Committed` or `Open → Cleaned` (section 4.4). -/
inductive PFState where
  | opened
  | committed
  | cleaned
deriving DecidableEq, Repr

/-- Modelled from the spec: the `PendingFile` handle — destination path,
temp-file path (`tmpName`, the name the factory chose inside the resolved
temp directory) and lifecycle state. The open OS file handle itself is
represented by `tmpName` indexing into the filesystem map. -/
structure PendingFile where
  path : String
  tmpName : String
  state : PFState
deriving DecidableEq, Repr

/-- Modelled from the spec: `NewPendingFile`. The temp-file factory's
chosen unique name is passed in as `tmp` (the factory's collision-retry
loop is external nondeterminism). The destination's mode is read
(lstat), the final permission is resolved per section 4.2, and the temp
file is created empty in the filesystem carrying the resolved mode (the
spec's creation-mode-then-post-creation-chmod pair collapses to its net
result in this model). The handle starts in `Open`. -/
def NewPendingFile (fs : FS) (dest : String) (cfg : Config) (umask : Nat) (tmp : String) :
    FS × PendingFile :=
  let existingMode := (fs dest).map File.mode
  let m := resolvePerm cfg umask existingMode
  (FS.put fs tmp ⟨[], m⟩, ⟨dest, tmp, PFState.opened⟩)

/-- Modelled from the spec: `Write` on a pending file — valid only in
`Open`, appends the bytes to the temp file; in `Committed` or `Cleaned`
it fails with the `Closed` error class and changes nothing. -/
def PendingFile.Write (fs : FS) (pf : PendingFile) (data : List Nat) :
    FS × Except FErr Unit :=
  match pf.state with
  | PFState.opened =>
    match fs pf.tmpName with
    | some f => (FS.put fs pf.tmpName ⟨f.content ++ data, f.mode⟩, Except.ok ())
    | none => (fs, Except.error FErr.ioError)
  | PFState.committed => (fs, Except.error FErr.closed)
  | PFState.cleaned => (fs, Except.error FErr.closed)

/-- Modelled from the spec: `CloseAtomicallyReplace` (commit) — valid only
in `Open`; fsync (a no-op on the filesystem map), then the atomic rename
of the temp path onto the destination, overwriting unconditionally,
then the transition to `Committed`. If the rename step fails
(`renameOk = false`) the error is surfaced, the handle stays `Open` and
the filesystem — in particular the destination — is untouched, the rename
being a single indivisible OS operation. In `Committed`/`Cleaned` it
fails with the `Closed` class. -/
def PendingFile.CloseAtomicallyReplace (fs : FS) (pf : PendingFile) (renameOk : Bool) :
    FS × PendingFile × Except FErr Unit :=
  match pf.state with
  | PFState.opened =>
    if renameOk then
      match fs pf.tmpName with
      | some f =>
        (FS.put (FS.del fs pf.tmpName) pf.path f, { pf with state := PFState.committed },
          Except.ok ())
      | none => (fs, pf, Except.error FErr.ioError)
    else (fs, pf, Except.error FErr.renameFailed)
  | PFState.committed => (fs, pf, Except.error FErr.closed)
  | PFState.cleaned => (fs, pf, Except.error FErr.closed)

/-- Modelled from the spec: `Cleanup` — idempotent; in `Open` it removes
the temp file (a missing temp file is success, not an error) and moves to
`Cleaned`; in `Committed` or `Cleaned` it is a no-op success. It never
touches the destination. -/
def PendingFile.Cleanup (fs : FS) (pf : PendingFile) :
    FS × PendingFile × Except FErr Unit :=
  match pf.state with
  | PFState.opened =>
    (FS.del fs pf.tmpName, { pf with state := PFState.cleaned }, Except.ok ())
  | PFState.committed => (fs, pf, Except.ok ())
  | PFState.cleaned => (fs, pf, Except.ok ())

/-- The full replacement flow the tests exercise: create the pending file,
write the payload, commit. Returns the final filesystem together with the
results of the write and of the commit. -/
def replaceFlow (fs : FS) (dest : String) (cfg : Config) (umask : Nat) (tmp : String)
    (payload : List Nat) : FS × Except FErr Unit × Except FErr Unit :=
  let c := NewPendingFile fs dest cfg umask tmp
  let w := PendingFile.Write c.1 c.2 payload
  let r := PendingFile.CloseAtomicallyReplace w.1 c.2 true
  (r.1, w.2, r.2.2)

/-- Modelled from the spec: the `TempFile(dir, path)` convenience
constructor — a pending file whose configuration fixes the destination
mode statically at `0o600` (the tests show the resulting mode is `0o600`
even under umask `0o377`) and uses `dir`, when non-empty, as the
temp-directory override. -/
def TempFile (fs : FS) (dir dest : String) (umask : Nat) (tmp : String) :
    FS × PendingFile :=
  let cfg : Config :=
    if dir = "" then WithStaticPermissions 0o600 {}
    else WithStaticPermissions 0o600 (WithTempDir dir {})
  NewPendingFile fs dest cfg umask tmp

/-- The host environment the candidate-directory resolver consumes:
the `TMPDIR` environment variable (`none` when unset), the
filesystem-device-identity query for a path (`none` when the path does
not exist or cannot be stat-ed — `getDev`'s failure case), and the
parent-directory function (`filepath.Dir`). All three are external
primitives per the spec's section 6. -/
structure Env where
  tmpdir : Option String
  dev : String → Option Nat
  dirOf : String → String

/-- Modelled from the spec: the Candidate-Directory Resolver
`tempDir(dir, dest)` of section 4.1. A non-empty caller override `dir` is
returned unchanged; otherwise the environment-preferred temp directory
(`TMPDIR`) is returned exactly when it can be stat-ed and is on the same
filesystem device as the destination's parent directory; in every other
case (variable unset, directory missing or un-stat-able, different
device) the destination's parent directory is returned. A stat failure
is never surfaced as an error. -/
def tempDir (env : Env) (dir dest : String) : String :=
  if dir ≠ "" then dir
  else
    let parent := env.dirOf dest
    match env.tmpdir with
    | none => parent
    | some t =>
      match env.dev t, env.dev parent with
      | some dt, some dp => if dt = dp then t else parent
      | some _, none => parent
      | none, _ => parent

/-- Modelled from the spec: the public `TempDir(dest)` resolver — `tempDir`
with no caller override. -/
def TempDir (env : Env) (dest : String) : String := tempDir env "" dest

/-- Association-list lookup for the cache's device-id → directory map. -/
def lookupDev : List (Nat × String) → Nat → Option String
  | [], _ => none
  | (d, s) :: rest, k => if k = d then some s else lookupDev rest k

/-- `TempDirCache` caches calls to `TempDir`: destinations on the same
device share the same temporary directory. The Go `map[int]string` is an
association list here. -/
structure TempDirCache where
  cache : List (Nat × String)
deriving DecidableEq, Repr

/-- `NewTempDirCache` returns a new, empty `TempDirCache`. -/
def NewTempDirCache : TempDirCache := ⟨[]⟩

/-- `TempDirCache.Get`, embedded from the source: determine the
destination's device id (`getDev`); on success, a cached entry for that
device is returned as is; otherwise `TempDir dest` is resolved and, when
the device id was determinable, stored under it. Returns the resolved
directory and the updated cache. -/
def TempDirCache.Get (env : Env) (c : TempDirCache) (dest : String) :
    String × TempDirCache :=
  match env.dev dest with
  | some dev =>
    match lookupDev c.cache dev with
    | some td => (td, c)
    | none =>
      let td := TempDir env dest
      (td, ⟨(dev, td) :: c.cache⟩)
  | none => (TempDir env dest, c)

/-- C1: for every byte payload `P` and destination `D` (existing or not),
creating a pending replacement, writing exactly `P` and committing
successfully makes reading `D` yield exactly `P`: the write and the
commit both succeed, and `D`'s content is `P` itself — the prior content
is fully replaced, never concatenated nor truncated-then-extended. -/
theorem commit_replaces_content (fs : FS) (dest : String) (cfg : Config) (umask : Nat)
    (tmp : String) (payload : List Nat) :
    (replaceFlow fs dest cfg umask tmp payload).2.1 = Except.ok () ∧
    (replaceFlow fs dest cfg umask tmp payload).2.2 = Except.ok () ∧
    ((replaceFlow fs dest cfg umask tmp payload).1 dest).map File.content = some payload := by
  simp [replaceFlow, NewPendingFile, PendingFile.Write, PendingFile.CloseAtomicallyReplace]

/-- C5: with no permission option supplied (the default configuration),
after a successful replacement the destination's mode is exactly
`0o600 &^ U` for the active umask `U`. -/
theorem default_mode_is_masked_0600 (fs : FS) (dest : String) (umask : Nat)
    (tmp : String) (payload : List Nat) :
    ((replaceFlow fs dest {} umask tmp payload).1 dest).map File.mode =
      some (Nat.ldiff 0o600 umask) := by
  simp [replaceFlow, NewPendingFile, PendingFile.Write, PendingFile.CloseAtomicallyReplace,
    resolvePerm]

/-- C3: whenever the configuration carries a static mode `M`
(`WithStaticPermissions M`, whatever other permission options are also
set and whatever the umask), the destination's mode after a successful
replacement is exactly `M`. -/
theorem static_mode_wins (fs : FS) (dest : String) (cfg : Config) (umask : Nat)
    (tmp : String) (payload : List Nat) (M : Nat) (h : cfg.staticPerm = some M) :
    ((replaceFlow fs dest cfg umask tmp payload).1 dest).map File.mode = some M := by
  simp [replaceFlow, NewPendingFile, PendingFile.Write, PendingFile.CloseAtomicallyReplace,
    resolvePerm, h]

/-- Witness for C3: a configuration combining `WithStaticPermissions 0o632`
with `IgnoreUmask` and `WithPermissions 0o765` (the test's "ignore umask
with static permissions" case) yields mode `0o632` under umask `0o077`. -/
theorem static_mode_wins_witness :
    (WithStaticPermissions 0o632 (WithPermissions 0o765 (IgnoreUmask {}))).staticPerm =
        some 0o632 ∧
    ((replaceFlow (fun _ => none) "d" (WithStaticPermissions 0o632 (WithPermissions 0o765
        (IgnoreUmask {}))) 0o077 "t" [1]).1 "d").map File.mode = some 0o632 :=
  ⟨rfl, static_mode_wins (fun _ => none) "d" _ 0o077 "t" [1] 0o632 rfl⟩

/-- C4: with no static mode and `WithExistingPermissions` requested, a
pre-existing destination of mode `M` keeps exactly mode `M` after the
replacement, with the umask not applied. -/
theorem existing_mode_preserved (fs : FS) (dest : String) (cfg : Config) (umask : Nat)
    (tmp : String) (payload : List Nat) (f : File)
    (hs : cfg.staticPerm = none) (hu : cfg.useExistingPerm = true) (he : fs dest = some f) :
    ((replaceFlow fs dest cfg umask tmp payload).1 dest).map File.mode = some f.mode := by
  simp [replaceFlow, NewPendingFile, PendingFile.Write, PendingFile.CloseAtomicallyReplace,
    resolvePerm, hs, hu, he]

/-- Witness for C4: a destination existing with mode `0o754`, replaced under
umask `0o077` with `WithExistingPermissions`, ends with mode `0o754`. -/
theorem existing_mode_preserved_witness :
    (WithExistingPermissions {} : Config).staticPerm = none ∧
    (WithExistingPermissions {} : Config).useExistingPerm = true ∧
    (fun q => if q = "d" then some (⟨[], 0o754⟩ : File) else none) "d" =
      some (⟨[], 0o754⟩ : File) ∧
    ((replaceFlow (fun q => if q = "d" then some (⟨[], 0o754⟩ : File) else none) "d"
        (WithExistingPermissions {}) 0o077 "t" [1]).1 "d").map File.mode = some 0o754 :=
  ⟨rfl, rfl, by simp,
    existing_mode_preserved _ "d" (WithExistingPermissions {}) 0o077 "t" [1] ⟨[], 0o754⟩
      rfl rfl (by simp)⟩

/-- The `TempFile` convenience flow: create via `TempFile`, write the
payload, commit. Returns the final filesystem. -/
def tempFileFlow (fs : FS) (dir dest : String) (umask : Nat) (tmp : String)
    (payload : List Nat) : FS :=
  let c := TempFile fs dir dest umask tmp
  let w := PendingFile.Write c.1 c.2 payload
  (PendingFile.CloseAtomicallyReplace w.1 c.2 true).1

/-- C10: for every umask (including pathological ones such as `0o377`) and
a destination that does not yet exist, a replacement performed through the
`TempFile` convenience constructor ends with destination mode exactly
`0o600`: the default mode of `TempFile` is static, not masked by the
umask. -/
theorem tempFile_default_mode_static (fs : FS) (dir dest : String) (umask : Nat)
    (tmp : String) (payload : List Nat) (h : fs dest = none) :
    ((tempFileFlow fs dir dest umask tmp payload) dest).map File.mode = some 0o600 := by
  rcases eq_or_ne dir "" with hd | hd <;>
    simp [tempFileFlow, TempFile, NewPendingFile, PendingFile.Write,
      PendingFile.CloseAtomicallyReplace, resolvePerm, WithStaticPermissions, WithTempDir, hd, h]

/-- Witness for C10: under umask `0o377` and a fresh destination, the
`TempFile` flow produces mode `0o600`. -/
theorem tempFile_default_mode_static_witness :
    ((fun _ => none : FS) "masked" = none) ∧
    ((tempFileFlow (fun _ => none) "" "masked" 0o377 "t" [9]) "masked").map File.mode =
      some 0o600 :=
  ⟨rfl, tempFile_default_mode_static (fun _ => none) "" "masked" 0o377 "t" [9] rfl⟩

/-- C2: the destination is never modified except by the successful rename:
`Write` (in any state) leaves the destination entry — content and mode —
unchanged; `Cleanup` (in any state) leaves it unchanged; a commit that
fails at the rename step returns the filesystem, the handle (still
`Open`) and the rename error with no effect at all; and a commit called
outside `Open` also leaves the destination unchanged. Creating the
pending file does not touch the destination either. -/
theorem dest_only_modified_by_rename (fs : FS) (pf : PendingFile) (data : List Nat) (b : Bool)
    (h : pf.tmpName ≠ pf.path) :
    ((PendingFile.Write fs pf data).1 pf.path = fs pf.path) ∧
    ((PendingFile.Cleanup fs pf).1 pf.path = fs pf.path) ∧
    (pf.state = PFState.opened →
      PendingFile.CloseAtomicallyReplace fs pf false =
        (fs, pf, Except.error FErr.renameFailed)) ∧
    (pf.state ≠ PFState.opened →
      (PendingFile.CloseAtomicallyReplace fs pf b).1 pf.path = fs pf.path) ∧
    (∀ fs0 cfg umask, (NewPendingFile fs0 pf.path cfg umask pf.tmpName).1 pf.path =
      fs0 pf.path) := by
  obtain ⟨path, tmp, st⟩ := pf
  simp only [ne_eq] at h
  have h' : path ≠ tmp := fun hc => h hc.symm
  refine ⟨?_, ?_, ?_, ?_, ?_⟩
  · cases st <;> simp [PendingFile.Write]
    cases hf : fs tmp <;> simp [hf, FS.put_other _ _ _ _ h']
  · cases st <;> simp [PendingFile.Cleanup, FS.del_other _ _ _ h']
  · cases st <;> simp [PendingFile.CloseAtomicallyReplace]
  · cases st <;> simp [PendingFile.CloseAtomicallyReplace]
  · intro fs0 cfg umask
    simp [NewPendingFile, FS.put_other _ _ _ _ h']

/-- Witness for C2: a handle on destination `"d"` with temp file `"t"`. -/
theorem dest_only_modified_by_rename_witness :
    (PendingFile.tmpName ⟨"d", "t", PFState.opened⟩ ≠ PendingFile.path ⟨"d", "t", PFState.opened⟩) ∧
    ((PendingFile.Cleanup (fun _ => none) ⟨"d", "t", PFState.opened⟩).1 "d" =
      (fun _ => none : FS) "d") :=
  ⟨by decide,
    (dest_only_modified_by_rename (fun _ => none) ⟨"d", "t", PFState.opened⟩ [] true
      (by decide)).2.1⟩

/-- C7: once `CloseAtomicallyReplace` has succeeded, every later `Write`
fails with the `Closed` error class and leaves the filesystem — in
particular the now-renamed destination — untouched. -/
theorem write_after_commit_closed (fs : FS) (pf : PendingFile) (data : List Nat)
    (hok : (PendingFile.CloseAtomicallyReplace fs pf true).2.2 = Except.ok ()) :
    PendingFile.Write (PendingFile.CloseAtomicallyReplace fs pf true).1
        (PendingFile.CloseAtomicallyReplace fs pf true).2.1 data =
      ((PendingFile.CloseAtomicallyReplace fs pf true).1, Except.error FErr.closed) := by
  obtain ⟨path, tmp, st⟩ := pf
  cases st <;> simp [PendingFile.CloseAtomicallyReplace] at hok ⊢
  cases hf : fs tmp <;> simp [hf] at hok ⊢
  simp [PendingFile.Write]

/-- Witness for C7: committing a handle whose temp file holds one byte
succeeds, and a `Write` afterwards returns the `Closed` error. -/
theorem write_after_commit_closed_witness :
    ((PendingFile.CloseAtomicallyReplace
        (fun q => if q = "t" then some (⟨[7], 0o600⟩ : File) else none)
        ⟨"d", "t", PFState.opened⟩ true).2.2 = Except.ok ()) ∧
    (PendingFile.Write (PendingFile.CloseAtomicallyReplace
        (fun q => if q = "t" then some (⟨[7], 0o600⟩ : File) else none)
        ⟨"d", "t", PFState.opened⟩ true).1
      (PendingFile.CloseAtomicallyReplace
        (fun q => if q = "t" then some (⟨[7], 0o600⟩ : File) else none)
        ⟨"d", "t", PFState.opened⟩ true).2.1 [1]).2 = Except.error FErr.closed := by
  have hok : (PendingFile.CloseAtomicallyReplace
      (fun q => if q = "t" then some (⟨[7], 0o600⟩ : File) else none)
      ⟨"d", "t", PFState.opened⟩ true).2.2 = Except.ok () := by
    simp [PendingFile.CloseAtomicallyReplace]
  exact ⟨hok, by
    rw [write_after_commit_closed
      (fun q => if q = "t" then some (⟨[7], 0o600⟩ : File) else none)
      ⟨"d", "t", PFState.opened⟩ [1] hok]⟩

/-- C8: `Cleanup` is idempotent and always succeeds: it returns success in
every state, a second call after a first is a complete no-op success, a
call after a successful commit changes nothing, and a temp file already
gone (`fs pf.tmpName = none`) is still success, never an error. -/
theorem cleanup_idempotent (fs : FS) (pf : PendingFile) :
    (PendingFile.Cleanup fs pf).2.2 = Except.ok () ∧
    (PendingFile.Cleanup (PendingFile.Cleanup fs pf).1 (PendingFile.Cleanup fs pf).2.1 =
      ((PendingFile.Cleanup fs pf).1, (PendingFile.Cleanup fs pf).2.1, Except.ok ())) ∧
    (pf.state = PFState.committed → PendingFile.Cleanup fs pf = (fs, pf, Except.ok ())) ∧
    (fs pf.tmpName = none → (PendingFile.Cleanup fs pf).2.2 = Except.ok ()) := by
  obtain ⟨path, tmp, st⟩ := pf
  cases st <;> simp [PendingFile.Cleanup]

/-- Witness for C8: three states all yield success, and cleaning twice from
`Open` is a no-op the second time. -/
theorem cleanup_idempotent_witness :
    (PFState.committed = PFState.committed) ∧
    ((fun _ => none : FS) ((⟨"d", "t", PFState.opened⟩ : PendingFile).tmpName) = none) ∧
    (PendingFile.Cleanup (fun _ => none) ⟨"d", "t", PFState.opened⟩).2.2 = Except.ok () :=
  ⟨rfl, rfl, (cleanup_idempotent (fun _ => none) ⟨"d", "t", PFState.opened⟩).1⟩

/-- C6: the candidate-directory resolver. A non-empty caller override is
returned unchanged; with no override and no `TMPDIR`, the destination's
parent directory is returned; with `TMPDIR` set, it is returned exactly
in the same-device case, while a `TMPDIR` that cannot be stat-ed (unset,
nonexistent — its device query fails), or that lies on a different
device, or a parent whose device cannot be determined, all fall back to
the parent directory; the resolver is total, so a stat failure is never
surfaced as an error. -/
theorem tempDir_resolution (env : Env) (dir p : String) :
    (dir ≠ "" → tempDir env dir p = dir) ∧
    (dir = "" → env.tmpdir = none → tempDir env dir p = env.dirOf p) ∧
    (∀ t dt dp, dir = "" → env.tmpdir = some t → env.dev t = some dt →
      env.dev (env.dirOf p) = some dp → dt = dp → tempDir env dir p = t) ∧
    (∀ t dt dp, dir = "" → env.tmpdir = some t → env.dev t = some dt →
      env.dev (env.dirOf p) = some dp → dt ≠ dp → tempDir env dir p = env.dirOf p) ∧
    (∀ t, dir = "" → env.tmpdir = some t → env.dev t = none →
      tempDir env dir p = env.dirOf p) ∧
    (∀ t dt, dir = "" → env.tmpdir = some t → env.dev t = some dt →
      env.dev (env.dirOf p) = none → tempDir env dir p = env.dirOf p) := by
  refine ⟨fun hd => ?_, fun hd h => ?_, fun t dt dp hd h1 h2 h3 h4 => ?_,
    fun t dt dp hd h1 h2 h3 h4 => ?_, fun t hd h1 h2 => ?_, fun t dt hd h1 h2 h3 => ?_⟩ <;>
    subst_vars <;> simp_all [tempDir]

/-- The environment used by the resolver and cache witnesses: `TMPDIR` set
to `"/tmpmnt"`, which shares device `5` with `"/data"`, the parent of
every path here. -/
def envW : Env where
  tmpdir := some "/tmpmnt"
  dev := fun q => if q = "/tmpmnt" then some 5 else if q = "/data" then some 5 else
    if q = "/data/foo.txt" then some 5 else none
  dirOf := fun _ => "/data"

/-- Witness for C6: with the override empty, `TMPDIR = "/tmpmnt"` on the
same device (5) as the parent `"/data"`, the resolver returns
`"/tmpmnt"`. -/
theorem tempDir_resolution_witness :
    envW.tmpdir = some "/tmpmnt" ∧ envW.dev "/tmpmnt" = some 5 ∧
    envW.dev (envW.dirOf "/data/foo.txt") = some 5 ∧
    tempDir envW "" "/data/foo.txt" = "/tmpmnt" :=
  ⟨rfl, by simp [envW], by simp [envW],
    (tempDir_resolution envW "" "/data/foo.txt").2.2.1 "/tmpmnt" 5 5 rfl rfl
      (by simp [envW]) (by simp [envW]) rfl⟩

/-- C9: `TempDirCache.Get`. When the destination's device id `d` is
determinable and not yet cached, `Get` returns `TempDir dest` and stores
it under `d`; when `d` is already cached, `Get` (on any destination with
that device id) returns the stored directory and leaves the cache as is;
when the device id cannot be determined, `Get` returns `TempDir dest`
and adds nothing; and existing cache entries are never invalidated or
replaced by any `Get`. -/
theorem tempDirCache_get_spec (env : Env) (c : TempDirCache) (dest : String) (d : Nat) :
    (env.dev dest = some d → lookupDev c.cache d = none →
      (TempDirCache.Get env c dest).1 = TempDir env dest ∧
      (TempDirCache.Get env c dest).2.cache = (d, TempDir env dest) :: c.cache) ∧
    (∀ td, env.dev dest = some d → lookupDev c.cache d = some td →
      TempDirCache.Get env c dest = (td, c)) ∧
    (env.dev dest = none → TempDirCache.Get env c dest = (TempDir env dest, c)) ∧
    (∀ d2 v, lookupDev c.cache d2 = some v →
      lookupDev (TempDirCache.Get env c dest).2.cache d2 = some v) := by
  refine ⟨fun hdev hlk => ?_, fun td hdev hlk => ?_, fun hdev => ?_, fun d2 v hv => ?_⟩
  · simp [TempDirCache.Get, hdev, hlk]
  · simp [TempDirCache.Get, hdev, hlk]
  · simp [TempDirCache.Get, hdev]
  · cases hdev : env.dev dest with
    | none => simpa [TempDirCache.Get, hdev] using hv
    | some dd =>
      cases hlk : lookupDev c.cache dd with
      | some td => simpa [TempDirCache.Get, hdev, hlk] using hv
      | none =>
        simp only [TempDirCache.Get, hdev, hlk, lookupDev]
        by_cases hdd : d2 = dd
        · subst hdd
          rw [hv] at hlk
          exact absurd hlk (by simp)
        · simpa [hdd] using hv

/-- Witness for C9: on an empty cache, a destination with device id `5`
resolves through `TempDir` and the result is stored under `5`. -/
theorem tempDirCache_get_spec_witness :
    envW.dev "/data/foo.txt" = some 5 ∧
    lookupDev NewTempDirCache.cache 5 = none ∧
    (TempDirCache.Get envW NewTempDirCache "/data/foo.txt").1 =
      TempDir envW "/data/foo.txt" ∧
    (TempDirCache.Get envW NewTempDirCache "/data/foo.txt").2.cache =
      (5, TempDir envW "/data/foo.txt") :: NewTempDirCache.cache :=
  ⟨by simp [envW], rfl,
    (tempDirCache_get_spec envW NewTempDirCache "/data/foo.txt" 5).1 (by simp [envW]) rfl⟩
